import Mathlib

/-!
Verification development for the stream-visualizer repository.

Shallow embedding of:
  * the CSV loaders of `src/app/api/transect-elevations/route.ts` and the
    stream-elevations route (`parseCsv`, the per-field numeric coercions and
    the `GET` handlers);
  * the coordinate scalers of `LongitudinalProfile.tsx` and
    `LateralProfile.tsx` (`xScale` / `yScale`);
  * the nearest-transect locator of the map component
    (`calculateDistance`, `findClosestTransect`, `handleMapMouseMove`).

JavaScript numbers that flow through the CSV pipeline are modelled by
`JSNum` (a rational, NaN, or a signed infinity); JavaScript values held in
a parsed row object by `JSValue`; row objects by association lists with
later property writes shadowing earlier ones.  Real-valued geometry uses
`ℝ`; the JavaScript `Infinity` initialiser of the locator's running minima
is modelled by `⊤ : WithTop ℝ`.
-/

namespace StreamViz

/-- A JavaScript number as produced by `parseInt` / `parseFloat`:
a finite value (rational), `NaN`, or `±Infinity`. -/
inductive JSNum where
  | num (q : ℚ)
  | nan
  | inf
  | negInf
deriving DecidableEq

/-- A JavaScript value stored in a parsed CSV row object. -/
inductive JSValue where
  | vstr (s : String)
  | vnum (n : JSNum)
  | vundef
deriving DecidableEq

/-- JavaScript strict equality `===` on numbers: `NaN === NaN` is false. -/
def jsNumEq : JSNum → JSNum → Bool
  | .num p, .num q => decide (p = q)
  | .inf, .inf => true
  | .negInf, .negInf => true
  | _, _ => false

/-- JavaScript strict equality `===` on values (string / number / undefined). -/
def strictEq : JSValue → JSValue → Bool
  | .vstr s, .vstr t => decide (s = t)
  | .vnum a, .vnum b => jsNumEq a b
  | .vundef, .vundef => true
  | _, _ => false

/-- JavaScript strict inequality `!==` on `number | undefined`
(`undefined !== undefined` is false, `NaN !== NaN` is true). -/
def strictNeIdOpt : Option JSNum → Option JSNum → Bool
  | none, none => false
  | some a, some b => ! jsNumEq a b
  | none, some _ => true
  | some _, none => true

/-- ASCII whitespace recognised by JavaScript `String.prototype.trim`. -/
def isSpaceJS (c : Char) : Bool :=
  c == ' ' || c == '\t' || c == '\n' || c == '\r' || c == '\x0b' || c == '\x0c'

/-- JavaScript `s.trim()` (restricted to ASCII whitespace). -/
def trimJS (s : String) : String :=
  String.mk (((s.toList.dropWhile isSpaceJS).reverse.dropWhile isSpaceJS).reverse)

/-- Split a character list at every occurrence of `sep` (JavaScript
`String.prototype.split` with a single-character separator). -/
def splitCharAux (sep : Char) : List Char → List Char → List (List Char)
  | [], acc => [acc.reverse]
  | c :: cs, acc =>
      if c = sep then acc.reverse :: splitCharAux sep cs []
      else splitCharAux sep cs (c :: acc)

/-- JavaScript `s.split(sep)` for a one-character separator:
`"".split(sep) = [""]`, adjacent separators yield empty fields. -/
def splitChar (sep : Char) (s : String) : List String :=
  (splitCharAux sep s.toList []).map String.mk

/-- Remove a single trailing carriage return, if present. -/
def stripTrailingCR (s : String) : String :=
  match s.toList.reverse with
  | '\r' :: rest => String.mk rest.reverse
  | _ => s

/-- JavaScript `csv.split(/\r?\n/)`: every `'\n'` separates lines and a
`'\r'` immediately before it is consumed with it. -/
def splitLines (s : String) : List String :=
  (splitChar '\n' s).map stripTrailingCR

/-- Is `c` one of the decimal digits `'0'..'9'`. -/
def isDigitC (c : Char) : Bool :=
  decide ('0' ≤ c) && decide (c ≤ '9')

/-- Numeric value of a list of decimal digits. -/
def digitsToNat (ds : List Char) : ℕ :=
  ds.foldl (fun a c => 10 * a + (c.toNat - '0'.toNat)) 0

/-- JavaScript `parseInt(s, 10)`: skip whitespace, optional sign, longest
digit run; `NaN` when no digit is found. -/
def parseIntJS (s : String) : JSNum :=
  let cs := (trimJS s).toList
  let sgn : ℚ × List Char :=
    match cs with
    | '-' :: r => (-1, r)
    | '+' :: r => (1, r)
    | r => (1, r)
  let ds := sgn.2.takeWhile isDigitC
  if ds.isEmpty then JSNum.nan else JSNum.num (sgn.1 * (digitsToNat ds : ℚ))

/-- Value of the exponent part of a JavaScript float literal; an exponent
with no digits is invalid and contributes `0` (it is not consumed). -/
def expVal (r : List Char) : ℤ :=
  let sgn : ℤ × List Char :=
    match r with
    | '-' :: t => (-1, t)
    | '+' :: t => (1, t)
    | t => (1, t)
  let ds := sgn.2.takeWhile isDigitC
  if ds.isEmpty then 0 else sgn.1 * (digitsToNat ds : ℤ)

/-- JavaScript `parseFloat(s)`: skip whitespace, optional sign, then the
longest prefix that is `Infinity` or a decimal literal with optional
fraction and exponent; `NaN` when no such prefix exists. -/
def parseFloatJS (s : String) : JSNum :=
  let cs := (trimJS s).toList
  let sgn : ℚ × List Char :=
    match cs with
    | '-' :: r => (-1, r)
    | '+' :: r => (1, r)
    | r => (1, r)
  if sgn.2.take 8 = "Infinity".toList then
    (if sgn.1 = 1 then JSNum.inf else JSNum.negInf)
  else
    let ipart := sgn.2.takeWhile isDigitC
    let r1 := sgn.2.drop ipart.length
    let fr : List Char × List Char :=
      match r1 with
      | '.' :: r => (r.takeWhile isDigitC, (r.drop ((r.takeWhile isDigitC).length)))
      | _ => ([], r1)
    if ipart.isEmpty && fr.1.isEmpty then JSNum.nan
    else
      let mantissa : ℚ := (digitsToNat ipart : ℚ) + (digitsToNat fr.1 : ℚ) / ((10 : ℚ) ^ fr.1.length)
      let e : ℤ :=
        match fr.2 with
        | 'e' :: r => expVal r
        | 'E' :: r => expVal r
        | _ => 0
      JSNum.num (sgn.1 * mantissa * (10 : ℚ) ^ e)

/-- A parsed CSV row object: an association list of property writes, the
most recent write first (later `obj[h] = v` assignments shadow earlier
ones on lookup). -/
abbrev Obj := List (String × JSValue)

/-- `obj[k] = v`. -/
def setKey (o : Obj) (k : String) (v : JSValue) : Obj := (k, v) :: o

/-- Property read `obj[k]`; `undefined` when the property is absent. -/
def getKey (o : Obj) (k : String) : JSValue :=
  match o.find? (fun p => p.1 == k) with
  | some p => p.2
  | none => JSValue.vundef

/-- `Object.prototype.hasOwnProperty.call(obj, k)`. -/
def hasKey (o : Obj) (k : String) : Bool :=
  o.any (fun p => p.1 == k)

/-- JavaScript `String(v)` as applied by `parseInt` / `parseFloat` to a
non-string argument.  Only the string and `undefined` cases are exercised
by the CSV pipeline, where every stored cell is a string. -/
def jsToString : JSValue → String
  | .vstr s => s
  | .vundef => "undefined"
  | .vnum .nan => "NaN"
  | .vnum .inf => "Infinity"
  | .vnum .negInf => "-Infinity"
  | .vnum (.num q) => toString q

/-- The statement `if (typeof obj[k] === 'string') obj[k] = parse(obj[k])`:
replace the property `k` by a parsed number exactly when its current value
is a string. -/
def condNumSet (o : Obj) (k : String) (f : String → JSNum) : Obj :=
  match getKey o k with
  | JSValue.vstr s => setKey o k (JSValue.vnum (f s))
  | _ => o

/-- `headers.forEach((h, i) => { obj[h] = cols[i] !== undefined ? cols[i].trim() : ''; })`. -/
def buildObj (headers cols : List String) : Obj :=
  headers.enum.foldl
    (fun o hi => setKey o hi.2 (JSValue.vstr (((cols.get? hi.1).map trimJS).getD "")))
    []

/-- The non-blank lines of a CSV text:
`csv.split(/\r?\n/).filter(l => l.trim().length > 0)`. -/
def csvLines (csv : String) : List String :=
  (splitLines csv).filter (fun l => 0 < (trimJS l).length)

/-- Result of a route handler: a JSON `{ data }` payload or a 500
`{ error }` payload. -/
inductive ApiResponse where
  | ok (data : List Obj)
  | serverError (error : String)

namespace TransectApi

/-- Per-field numeric coercion of `parseCsv` in
`src/app/api/transect-elevations/route.ts` (lines 20–26): `parseInt` on
`transect_id` and `vertex_index`, `parseFloat` on `elevation`, and for a
present `dam` column `parseFloat` with `NaN` replaced by `undefined`. -/
def coerceFields (o : Obj) : Obj :=
  let o1 := setKey o "transect_id" (JSValue.vnum (parseIntJS (jsToString (getKey o "transect_id"))))
  let o2 := setKey o1 "vertex_index" (JSValue.vnum (parseIntJS (jsToString (getKey o1 "vertex_index"))))
  let o3 := setKey o2 "elevation" (JSValue.vnum (parseFloatJS (jsToString (getKey o2 "elevation"))))
  if hasKey o3 "dam" then
    let v := parseFloatJS (jsToString (getKey o3 "dam"))
    setKey o3 "dam" (match v with | JSNum.nan => JSValue.vundef | _ => JSValue.vnum v)
  else o3

/-- One record of `parseCsv`: build the object from the header row and the
line's comma-split cells, then coerce the numeric fields. -/
def parseRow (headers : List String) (line : String) : Obj :=
  coerceFields (buildObj headers (splitChar ',' line))

/-- `parseCsv` of `src/app/api/transect-elevations/route.ts` (lines 12–29). -/
def parseCsv (csv : String) : List Obj :=
  let lines := csvLines csv
  match lines with
  | [] => []
  | header :: rest =>
      let headers := (splitChar ',' header).map trimJS
      rest.map (parseRow headers)

/-- The `GET` handler of `src/app/api/transect-elevations/route.ts`
(lines 31–46), with the file read modelled as an `Except` input and the
`transect_id` query parameter as an `Option String` (`searchParams.get`
returns `null` when absent; the empty string is falsy in
`idParam ? parseInt(idParam, 10) : null`). -/
def GET (file : Except String String) (idParam : Option String) : ApiResponse :=
  match file with
  | .error e => .serverError e
  | .ok content =>
      let data := parseCsv content
      let transectId : Option JSNum :=
        match idParam with
        | some s => if s = "" then none else some (parseIntJS s)
        | none => none
      match transectId with
      | some tid => .ok (data.filter (fun d => strictEq (getKey d "transect_id") (JSValue.vnum tid)))
      | none => .ok data

end TransectApi

namespace StreamApi

/-- Per-field numeric coercion of `parseCsv` in the stream-elevations
route (lines 21–24): each of `vertex_id`, `elevation_normalized_m` and
`elevation` is converted only when the stored value is a string
(`parseInt` for `vertex_id`, `parseFloat` for the elevations). -/
def coerceFields (o : Obj) : Obj :=
  let o1 := condNumSet o "vertex_id" parseIntJS
  let o2 := condNumSet o1 "elevation_normalized_m" parseFloatJS
  let o3 := condNumSet o2 "elevation" parseFloatJS
  o3

/-- One record of the stream-elevations `parseCsv`. -/
def parseRow (headers : List String) (line : String) : Obj :=
  coerceFields (buildObj headers (splitChar ',' line))

/-- `parseCsv` of the stream-elevations route (lines 11–28). -/
def parseCsv (csv : String) : List Obj :=
  let lines := csvLines csv
  match lines with
  | [] => []
  | header :: rest =>
      let headers := (splitChar ',' header).map trimJS
      rest.map (parseRow headers)

end StreamApi

namespace LongitudinalProfile

def width : ℚ := 1000
def height : ℚ := 200
def marginTop : ℚ := 24
def marginRight : ℚ := 12
def marginBottom : ℚ := 26
def marginLeft : ℚ := 52
def innerW : ℚ := width - marginLeft - marginRight
def innerH : ℚ := height - marginTop - marginBottom

/-- The fixed y-domain of the longitudinal chart. -/
def minYConst : ℚ := -15
def maxYConst : ℚ := (15 : ℚ) / 2

/-- `xScale` of `LongitudinalProfile.tsx` (lines 60–63); `minX` and `maxX`
are the data-derived domain bounds the component closes over. -/
def xScale (minX maxX x : ℚ) : ℚ :=
  if maxX = minX then marginLeft + innerW / 2
  else marginLeft + ((x - minX) / (maxX - minX)) * innerW

/-- `yScale` of `LongitudinalProfile.tsx` (lines 64–67); `minY` and `maxY`
are the closed-over domain bounds (fixed to `-15` and `7.5` in the
component). -/
def yScale (minY maxY y : ℚ) : ℚ :=
  if maxY = minY then marginTop + innerH / 2
  else marginTop + innerH - ((y - minY) / (maxY - minY)) * innerH

end LongitudinalProfile

namespace LateralProfile

def width : ℚ := 600
def height : ℚ := 300
def marginTop : ℚ := 12
def marginRight : ℚ := 12
def marginBottom : ℚ := 28
def marginLeft : ℚ := 52
def innerW : ℚ := width - marginLeft - marginRight
def innerH : ℚ := height - marginTop - marginBottom

def minX : ℚ := 0
def maxX : ℚ := 40
def minY : ℚ := -20
def maxY : ℚ := 20

/-- `xScale` of `LateralProfile.tsx` (line 50): no degenerate-domain
branch; the domain bounds are the constants `0` and `40`. -/
def xScale (xMeters : ℚ) : ℚ :=
  marginLeft + ((xMeters - minX) / (maxX - minX)) * innerW

/-- `yScale` of `LateralProfile.tsx` (line 51). -/
def yScale (y : ℚ) : ℚ :=
  marginTop + innerH - ((y - minY) / (maxY - minY)) * innerH

end LateralProfile

namespace StreamMap

/-- The properties of one GeoJSON transect feature.  `transect_id` and
`vertex_id` are kept as JavaScript numbers (they feed the strict-equality
hover logic); the purely descriptive metadata is kept as reals. -/
structure TransectProperties where
  transect_id : JSNum
  vertex_id : JSNum
  stream_vertex_lat : ℝ
  stream_vertex_lon : ℝ
  transect_length_m : ℝ
  spacing_m : ℝ
  num_vertices : ℝ

/-- A GeoJSON `LineString` geometry: ordered `[lon, lat]` pairs. -/
structure TransectGeometry where
  coordinates : List (ℝ × ℝ)

/-- One transect feature. -/
structure TransectFeature where
  properties : TransectProperties
  geometry : TransectGeometry

/-- The loaded feature collection. -/
structure TransectData where
  features : List TransectFeature

/-- JavaScript `Math.atan2 y x`. -/
noncomputable def atan2 (y x : ℝ) : ℝ :=
  if 0 < x then Real.arctan (y / x)
  else if x < 0 then
    (if 0 ≤ y then Real.arctan (y / x) + Real.pi else Real.arctan (y / x) - Real.pi)
  else if 0 < y then Real.pi / 2
  else if y < 0 then -(Real.pi / 2)
  else 0

/-- `calculateDistance` of the map component (lines 286–298): haversine
distance in meters. -/
noncomputable def calculateDistance (lat1 lon1 lat2 lon2 : ℝ) : ℝ :=
  let R : ℝ := 6371e3
  let phi1 := lat1 * Real.pi / 180
  let phi2 := lat2 * Real.pi / 180
  let dphi := (lat2 - lat1) * Real.pi / 180
  let dlam := (lon2 - lon1) * Real.pi / 180
  let a := Real.sin (dphi / 2) * Real.sin (dphi / 2) +
    Real.cos phi1 * Real.cos phi2 * Real.sin (dlam / 2) * Real.sin (dlam / 2)
  let c := 2 * atan2 (Real.sqrt a) (Real.sqrt (1 - a))
  R * c

open Classical in
/-- The inner loop of `findClosestTransect` over the coordinates of one
feature: `let localMin = Infinity; for (const coord of cs) do if the distance
is below `localMin` replace it.  JavaScript `Infinity` is `⊤ : WithTop ℝ`. -/
noncomputable def vertexFold (mouseLat mouseLng : ℝ) : List (ℝ × ℝ) → WithTop ℝ → WithTop ℝ
  | [], m => m
  | c :: cs, m =>
      let d := calculateDistance mouseLat mouseLng c.2 c.1
      vertexFold mouseLat mouseLng cs (if (d : WithTop ℝ) < m then (d : WithTop ℝ) else m)

/-- The minimum haversine distance from the mouse point to any vertex of
`f` (the `localMin` accumulated for one feature). -/
noncomputable def localMin (mouseLat mouseLng : ℝ) (f : TransectFeature) : WithTop ℝ :=
  vertexFold mouseLat mouseLng f.geometry.coordinates ⊤

open Classical in
/-- The outer loop of `findClosestTransect`: `closest` starts as `null` and
`best` as `Infinity`; each feature whose `localMin` is strictly below `best`
becomes the new `closest`. -/
noncomputable def closestLoop (mouseLat mouseLng : ℝ) :
    List TransectFeature → WithTop ℝ → Option TransectFeature → Option TransectFeature
  | [], _, closest => closest
  | f :: fs, best, closest =>
      let lm := localMin mouseLat mouseLng f
      if lm < best then closestLoop mouseLat mouseLng fs lm (some f)
      else closestLoop mouseLat mouseLng fs best closest

/-- `findClosestTransect` of the map component (lines 301–318). -/
noncomputable def findClosestTransect (transectData : Option TransectData)
    (mouseLat mouseLng : ℝ) : Option TransectFeature :=
  match transectData with
  | none => none
  | some data => closestLoop mouseLat mouseLng data.features ⊤ none

/-- The observable effect of one `handleMapMouseMove` call: the hover
state afterwards, and the argument of the `onActiveVertexChange` call when
it was invoked (`none` when it was not). -/
structure MouseMoveEffect where
  hoveredAfter : Option TransectFeature
  callback : Option (Option JSNum)

/-- `handleMapMouseMove` of the map component (lines 320–329):
recompute the closest transect and update hover state and the
active-vertex callback only when `currentHoveredId !== newHoveredId`. -/
noncomputable def handleMapMouseMove (transectData : Option TransectData)
    (hoveredTransect : Option TransectFeature) (lat lng : ℝ) : MouseMoveEffect :=
  let closest := findClosestTransect transectData lat lng
  let currentHoveredId := hoveredTransect.map (fun f => f.properties.transect_id)
  let newHoveredId := closest.map (fun f => f.properties.transect_id)
  if strictNeIdOpt currentHoveredId newHoveredId then
    { hoveredAfter := closest, callback := some (closest.map (fun f => f.properties.vertex_id)) }
  else
    { hoveredAfter := hoveredTransect, callback := none }

end StreamMap

/-- The haversine great-circle distance exactly as the specification
words it: Earth radius `6 371 000` m, `a = sin²(Δφ/2) + cos φ1 · cos φ2 · sin²(Δλ/2)`,
`c = 2·atan2(√a, √(1−a))`, result `R·c`, with the inputs converted from
degrees to radians. -/
noncomputable def haversineSpecFormula (lat1 lon1 lat2 lon2 : ℝ) : ℝ :=
  let R : ℝ := 6371000
  let phi1 := lat1 * Real.pi / 180
  let phi2 := lat2 * Real.pi / 180
  let dphi := (lat2 - lat1) * Real.pi / 180
  let dlam := (lon2 - lon1) * Real.pi / 180
  let a := Real.sin (dphi / 2) ^ 2 + Real.cos phi1 * Real.cos phi2 * Real.sin (dlam / 2) ^ 2
  R * (2 * StreamMap.atan2 (Real.sqrt a) (Real.sqrt (1 - a)))

/-! ### Concrete sample data used by witnesses and counterexamples -/

/-- Build a transect feature with the given ids and line coordinates; the
descriptive metadata fields are zeroed. -/
def mkFeature (tid vid : ℚ) (cs : List (ℝ × ℝ)) : StreamMap.TransectFeature :=
  { properties :=
      { transect_id := JSNum.num tid, vertex_id := JSNum.num vid,
        stream_vertex_lat := 0, stream_vertex_lon := 0,
        transect_length_m := 0, spacing_m := 0, num_vertices := 0 },
    geometry := { coordinates := cs } }

def featW : StreamMap.TransectFeature := mkFeature 1 10 [((0 : ℝ), (0 : ℝ))]

def dataW : StreamMap.TransectData := { features := [featW] }

def fdup1 : StreamMap.TransectFeature := mkFeature 1 10 [((0 : ℝ), (0 : ℝ))]

def fdup2 : StreamMap.TransectFeature := mkFeature 2 20 [((0 : ℝ), (0 : ℝ))]

def dataDup : StreamMap.TransectData := { features := [fdup1, fdup2] }

def featRT : StreamMap.TransectFeature := mkFeature 3 30 [((0 : ℝ), (0 : ℝ))]

def dataRT : StreamMap.TransectData := { features := [featRT] }

def iRT : Fin dataRT.features.length := ⟨0, Nat.one_pos⟩

def featE : StreamMap.TransectFeature := mkFeature 4 40 []

def dataE : StreamMap.TransectData := { features := [featE] }

/-- A row object whose six named numeric fields all hold the non-numeric
text `"x"`. -/
def OW : Obj :=
  buildObj
    ["transect_id", "vertex_index", "elevation", "dam", "vertex_id", "elevation_normalized_m"]
    ["x", "x", "x", "x", "x", "x"]

/-! ### Helper lemmas about row objects -/

theorem getKey_setKey_same (o : Obj) (k : String) (v : JSValue) :
    getKey (setKey o k v) k = v := by
  simp [getKey, setKey, List.find?_cons]

theorem getKey_setKey_ne (o : Obj) (k k2 : String) (v : JSValue) (h : k2 ≠ k) :
    getKey (setKey o k2 v) k = getKey o k := by
  simp [getKey, setKey, List.find?_cons, h]

theorem hasKey_setKey (o : Obj) (k k2 : String) (v : JSValue) :
    hasKey (setKey o k2 v) k = (k2 == k || hasKey o k) := by
  simp [hasKey, setKey, List.any_cons]

theorem getKey_condNumSet_ne (o : Obj) (k k2 : String) (f : String → JSNum) (h : k2 ≠ k) :
    getKey (condNumSet o k2 f) k = getKey o k := by
  unfold condNumSet
  cases hh : getKey o k2
  · exact getKey_setKey_ne o k k2 _ h
  · rfl
  · rfl

theorem getKey_condNumSet_str (o : Obj) (k : String) (f : String → JSNum) (s : String)
    (h : getKey o k = JSValue.vstr s) :
    getKey (condNumSet o k f) k = JSValue.vnum (f s) := by
  unfold condNumSet
  rw [h]
  exact getKey_setKey_same o k _

/-! ### Helper lemmas about the locator loops -/

namespace StreamMap

theorem vertexFold_le_init (lat lng : ℝ) (cs : List (ℝ × ℝ)) :
    ∀ m : WithTop ℝ, vertexFold lat lng cs m ≤ m := by
  induction cs with
  | nil => intro m; simp [vertexFold]
  | cons c cs ih =>
      intro m
      simp only [vertexFold]
      split_ifs with h
      · exact le_trans (ih _) (le_of_lt h)
      · exact ih m

theorem vertexFold_le_mem (lat lng : ℝ) (cs : List (ℝ × ℝ)) (c : ℝ × ℝ) (hc : c ∈ cs) :
    ∀ m : WithTop ℝ,
      vertexFold lat lng cs m ≤ (calculateDistance lat lng c.2 c.1 : WithTop ℝ) := by
  induction cs with
  | nil => cases hc
  | cons a cs ih =>
      intro m
      simp only [vertexFold]
      rcases List.mem_cons.mp hc with rfl | hc
      · split_ifs with h
        · exact vertexFold_le_init lat lng cs _
        · exact le_trans (vertexFold_le_init lat lng cs _) (not_lt.mp h)
      · exact ih hc _

theorem vertexFold_attained (lat lng : ℝ) (cs : List (ℝ × ℝ)) :
    ∀ m : WithTop ℝ,
      vertexFold lat lng cs m = m ∨
        ∃ c ∈ cs, vertexFold lat lng cs m = (calculateDistance lat lng c.2 c.1 : WithTop ℝ) := by
  induction cs with
  | nil => intro m; left; rfl
  | cons a cs ih =>
      intro m
      simp only [vertexFold]
      split_ifs with h
      · rcases ih _ with h1 | ⟨c, hc, h2⟩
        · right; exact ⟨a, List.mem_cons_self a cs, h1⟩
        · right; exact ⟨c, List.mem_cons_of_mem a hc, h2⟩
      · rcases ih m with h1 | ⟨c, hc, h2⟩
        · left; exact h1
        · right; exact ⟨c, List.mem_cons_of_mem a hc, h2⟩

theorem localMin_lt_top (lat lng : ℝ) (f : TransectFeature)
    (h : f.geometry.coordinates ≠ []) : localMin lat lng f < ⊤ := by
  obtain ⟨c, cs, hcs⟩ := List.exists_cons_of_ne_nil h
  unfold localMin
  rw [hcs]
  simp only [vertexFold]
  rw [if_pos (WithTop.coe_lt_top _)]
  exact lt_of_le_of_lt (vertexFold_le_init lat lng cs _) (WithTop.coe_lt_top _)

theorem localMin_le_vertex (lat lng : ℝ) (f : TransectFeature) (c : ℝ × ℝ)
    (hc : c ∈ f.geometry.coordinates) :
    localMin lat lng f ≤ (calculateDistance lat lng c.2 c.1 : WithTop ℝ) :=
  vertexFold_le_mem lat lng _ c hc ⊤

theorem arctan_nonneg_of_nonneg (z : ℝ) (hz : 0 ≤ z) : 0 ≤ Real.arctan z := by
  have h := Real.arctan_strictMono.monotone hz
  rwa [Real.arctan_zero] at h

theorem atan2_nonneg (y x : ℝ) (hy : 0 ≤ y) : 0 ≤ atan2 y x := by
  unfold atan2
  have hpi := Real.pi_pos
  have hlow := Real.neg_pi_div_two_lt_arctan (y / x)
  split_ifs with h1 h2 h3 h4
  all_goals try linarith
  all_goals exact arctan_nonneg_of_nonneg _ (div_nonneg hy (le_of_lt h1))

theorem calculateDistance_nonneg (lat1 lon1 lat2 lon2 : ℝ) :
    0 ≤ calculateDistance lat1 lon1 lat2 lon2 := by
  simp only [calculateDistance]
  have h := atan2_nonneg (Real.sqrt (Real.sin ((lat2 - lat1) * Real.pi / 180 / 2) *
      Real.sin ((lat2 - lat1) * Real.pi / 180 / 2) +
      Real.cos (lat1 * Real.pi / 180) * Real.cos (lat2 * Real.pi / 180) *
      Real.sin ((lon2 - lon1) * Real.pi / 180 / 2) *
      Real.sin ((lon2 - lon1) * Real.pi / 180 / 2)))
    (Real.sqrt (1 - (Real.sin ((lat2 - lat1) * Real.pi / 180 / 2) *
      Real.sin ((lat2 - lat1) * Real.pi / 180 / 2) +
      Real.cos (lat1 * Real.pi / 180) * Real.cos (lat2 * Real.pi / 180) *
      Real.sin ((lon2 - lon1) * Real.pi / 180 / 2) *
      Real.sin ((lon2 - lon1) * Real.pi / 180 / 2))))
    (Real.sqrt_nonneg _)
  have h2 : (0 : ℝ) ≤ 6371e3 := by norm_num
  exact mul_nonneg h2 (mul_nonneg (by norm_num) h)

theorem calculateDistance_self (lat lng : ℝ) : calculateDistance lat lng lat lng = 0 := by
  simp only [calculateDistance, sub_self, zero_mul, zero_div, Real.sin_zero, mul_zero,
    zero_add, add_zero, Real.sqrt_zero, sub_zero, Real.sqrt_one]
  simp [atan2, Real.arctan_zero]

theorem vertexFold_nonneg (lat lng : ℝ) (cs : List (ℝ × ℝ)) :
    ∀ m : WithTop ℝ, 0 ≤ m → 0 ≤ vertexFold lat lng cs m := by
  induction cs with
  | nil => intro m hm; simpa [vertexFold] using hm
  | cons c cs ih =>
      intro m hm
      simp only [vertexFold]
      split_ifs with h
      · refine ih _ ?_
        have : ((0 : ℝ) : WithTop ℝ) ≤ (calculateDistance lat lng c.2 c.1 : WithTop ℝ) :=
          WithTop.coe_le_coe.mpr (calculateDistance_nonneg lat lng c.2 c.1)
        simpa using this
      · exact ih m hm

theorem localMin_nonneg (lat lng : ℝ) (f : TransectFeature) : 0 ≤ localMin lat lng f :=
  vertexFold_nonneg lat lng _ ⊤ le_top

theorem closestLoop_of_not_lt (lat lng : ℝ) (fs : List TransectFeature) :
    ∀ (best : WithTop ℝ) (acc : Option TransectFeature),
      (∀ f ∈ fs, ¬ localMin lat lng f < best) → closestLoop lat lng fs best acc = acc := by
  induction fs with
  | nil => intro best acc _; rfl
  | cons f fs ih =>
      intro best acc h
      simp only [closestLoop]
      rw [if_neg (h f (List.mem_cons_self f fs))]
      exact ih best acc (fun g hg => h g (List.mem_cons_of_mem f hg))

theorem closestLoop_improve (lat lng : ℝ) (fs : List TransectFeature) :
    ∀ (best : WithTop ℝ) (acc : Option TransectFeature),
      (∃ f ∈ fs, localMin lat lng f < best) →
      ∃ i : Fin fs.length,
        closestLoop lat lng fs best acc = some (fs.get i) ∧
        localMin lat lng (fs.get i) < best ∧
        (∀ j : Fin fs.length, localMin lat lng (fs.get i) ≤ localMin lat lng (fs.get j)) ∧
        (∀ j : Fin fs.length, j.1 < i.1 →
          localMin lat lng (fs.get i) < localMin lat lng (fs.get j)) := by
  induction fs with
  | nil => intro best acc h; simp at h
  | cons f fs ih =>
      intro best acc h
      simp only [closestLoop]
      by_cases hf : localMin lat lng f < best
      · rw [if_pos hf]
        by_cases hrest : ∃ g ∈ fs, localMin lat lng g < localMin lat lng f
        · obtain ⟨i, hres, hlt, hle, hstrict⟩ := ih (localMin lat lng f) (some f) hrest
          refine ⟨⟨i.1 + 1, Nat.succ_lt_succ i.2⟩, ?_, lt_trans hlt hf, ?_, ?_⟩
          · simpa using hres
          · intro j
            rcases j with ⟨j0, hj⟩
            cases j0 with
            | zero => simpa using le_of_lt hlt
            | succ k =>
                have hk : k < fs.length := Nat.lt_of_succ_lt_succ hj
                simpa using hle ⟨k, hk⟩
          · intro j hj
            rcases j with ⟨j0, hj0⟩
            cases j0 with
            | zero => simpa using hlt
            | succ k =>
                have hk : k < fs.length := Nat.lt_of_succ_lt_succ hj0
                have hki : k < i.1 := Nat.lt_of_succ_lt_succ hj
                simpa using hstrict ⟨k, hk⟩ hki
        · push_neg at hrest
          rw [closestLoop_of_not_lt lat lng fs _ _ (fun g hg => not_lt.mpr (hrest g hg))]
          refine ⟨⟨0, Nat.succ_pos _⟩, rfl, hf, ?_, ?_⟩
          · intro j
            rcases j with ⟨j0, hj⟩
            cases j0 with
            | zero => simp
            | succ k =>
                have hk : k < fs.length := Nat.lt_of_succ_lt_succ hj
                simpa using hrest (fs.get ⟨k, hk⟩) (List.get_mem fs k hk)
          · intro j hj
            exact absurd hj (Nat.not_lt_zero _)
      · rw [if_neg hf]
        have hrest : ∃ g ∈ fs, localMin lat lng g < best := by
          obtain ⟨g, hg, hlt⟩ := h
          rcases List.mem_cons.mp hg with rfl | hg2
          · exact absurd hlt hf
          · exact ⟨g, hg2, hlt⟩
        obtain ⟨i, hres, hlt, hle, hstrict⟩ := ih best acc hrest
        have hbf : best ≤ localMin lat lng f := not_lt.mp hf
        refine ⟨⟨i.1 + 1, Nat.succ_lt_succ i.2⟩, by simpa using hres, hlt, ?_, ?_⟩
        · intro j
          rcases j with ⟨j0, hj⟩
          cases j0 with
          | zero => simpa using le_of_lt (lt_of_lt_of_le hlt hbf)
          | succ k =>
              have hk : k < fs.length := Nat.lt_of_succ_lt_succ hj
              simpa using hle ⟨k, hk⟩
        · intro j hj
          rcases j with ⟨j0, hj0⟩
          cases j0 with
          | zero => simpa using lt_of_lt_of_le hlt hbf
          | succ k =>
              have hk : k < fs.length := Nat.lt_of_succ_lt_succ hj0
              have hki : k < i.1 := Nat.lt_of_succ_lt_succ hj
              simpa using hstrict ⟨k, hk⟩ hki

end StreamMap

/-! ### Claim theorems -/

open StreamMap

/-- C2: a chart scaler with a degenerate domain (`min == max`) returns
exactly the midpoint of its pixel range (this holds for both longitudinal
scalers, whose degenerate branch short-circuits the division), and the
lateral chart's scalers have constant non-degenerate domains, so no
scaler ever divides by a zero `max − min`. -/
theorem scaler_degenerate_midpoint :
    (∀ m x : ℚ, LongitudinalProfile.xScale m m x =
      (LongitudinalProfile.marginLeft + (LongitudinalProfile.marginLeft + LongitudinalProfile.innerW)) / 2) ∧
    (∀ m y : ℚ, LongitudinalProfile.yScale m m y =
      (LongitudinalProfile.marginTop + (LongitudinalProfile.marginTop + LongitudinalProfile.innerH)) / 2) ∧
    LateralProfile.maxX - LateralProfile.minX ≠ 0 ∧
    LateralProfile.maxY - LateralProfile.minY ≠ 0 := by
  refine ⟨fun m x => ?_, fun m y => ?_, ?_, ?_⟩
  · simp only [LongitudinalProfile.xScale, if_pos rfl]
    norm_num [LongitudinalProfile.marginLeft, LongitudinalProfile.innerW,
      LongitudinalProfile.width, LongitudinalProfile.marginRight]
  · simp only [LongitudinalProfile.yScale, if_pos rfl]
    norm_num [LongitudinalProfile.marginTop, LongitudinalProfile.innerH,
      LongitudinalProfile.height, LongitudinalProfile.marginBottom]
  · norm_num [LateralProfile.maxX, LateralProfile.minX]
  · norm_num [LateralProfile.maxY, LateralProfile.minY]

/-- C5 counterexample: the longitudinal `xScale` with the non-degenerate
domain `[0, 1]` is not idempotent at `x = 0` — rescaling its output moves
the point. -/
theorem xScale_idempotent_counterexample :
    LongitudinalProfile.xScale 0 1 (LongitudinalProfile.xScale 0 1 0) ≠
      LongitudinalProfile.xScale 0 1 0 := by
  norm_num [LongitudinalProfile.xScale, LongitudinalProfile.marginLeft,
    LongitudinalProfile.innerW, LongitudinalProfile.width, LongitudinalProfile.marginRight]

/-- C5 amended: only the degenerate-domain branch of the scalers is
idempotent — there the scaler is constant, so applying it to its own
output changes nothing. -/
theorem scaler_degenerate_idempotent :
    (∀ m x : ℚ, LongitudinalProfile.xScale m m (LongitudinalProfile.xScale m m x) =
      LongitudinalProfile.xScale m m x) ∧
    (∀ m y : ℚ, LongitudinalProfile.yScale m m (LongitudinalProfile.yScale m m y) =
      LongitudinalProfile.yScale m m y) := by
  constructor <;> intro m x <;>
    simp [LongitudinalProfile.xScale, LongitudinalProfile.yScale]

/-- C8: the Locator's distance function is exactly the haversine
great-circle distance with Earth radius 6 371 000 m as worded in the
specification (`a = sin²(Δφ/2) + cos φ1 · cos φ2 · sin²(Δλ/2)`,
`c = 2·atan2(√a, √(1−a))`, result `R·c`). -/
theorem calculateDistance_eq_haversineSpec (lat1 lon1 lat2 lon2 : ℝ) :
    calculateDistance lat1 lon1 lat2 lon2 = haversineSpecFormula lat1 lon1 lat2 lon2 := by
  simp only [calculateDistance, haversineSpecFormula]
  norm_num
  ring_nf

/-- C10: when the collection is loaded but has no features, or every
feature's coordinate list is empty, the Locator returns `none` for every
input point: a transect whose running minimum stays `Infinity` never
passes the strict `<` test. -/
theorem findClosestTransect_none_of_no_vertices (lat lng : ℝ) (data : TransectData)
    (h : ∀ f ∈ data.features, f.geometry.coordinates = []) :
    findClosestTransect (some data) lat lng = none := by
  show closestLoop lat lng data.features ⊤ none = none
  apply closestLoop_of_not_lt
  intro f hf
  have hm : localMin lat lng f = ⊤ := by
    unfold localMin
    rw [h f hf]
    rfl
  rw [hm]
  exact lt_irrefl ⊤

/-- Witness for C10 at a collection with one vertexless feature and at a
collection with no features at all. -/
theorem findClosestTransect_none_of_no_vertices_witness :
    (∀ f ∈ dataE.features, f.geometry.coordinates = []) ∧
    findClosestTransect (some dataE) 0 0 = none ∧
    findClosestTransect (some { features := [] }) 0 0 = none := by
  have h1 : ∀ f ∈ dataE.features, f.geometry.coordinates = [] := by
    simp [dataE, featE, mkFeature]
  exact ⟨h1, findClosestTransect_none_of_no_vertices 0 0 dataE h1,
    findClosestTransect_none_of_no_vertices 0 0 { features := [] } (by simp)⟩

/-- C9: a mouse-move whose closest transect has the same `transect_id` as
the currently hovered one (JavaScript strict equality, so also when both
are absent) leaves the hover state unchanged and invokes no callback;
when the identities differ, the hover state becomes the new closest
transect and the callback is invoked with its `vertex_id` (or null). -/
theorem handleMapMouseMove_suppression (td : Option TransectData)
    (hoveredTransect : Option TransectFeature) (lat lng : ℝ) :
    (strictNeIdOpt (hoveredTransect.map fun f => f.properties.transect_id)
        ((findClosestTransect td lat lng).map fun f => f.properties.transect_id) = false →
      handleMapMouseMove td hoveredTransect lat lng =
        { hoveredAfter := hoveredTransect, callback := none }) ∧
    (strictNeIdOpt (hoveredTransect.map fun f => f.properties.transect_id)
        ((findClosestTransect td lat lng).map fun f => f.properties.transect_id) = true →
      handleMapMouseMove td hoveredTransect lat lng =
        { hoveredAfter := findClosestTransect td lat lng,
          callback := some ((findClosestTransect td lat lng).map fun f => f.properties.vertex_id) }) := by
  constructor <;> intro h <;> simp [handleMapMouseMove, h]

/-- C3: both CSV loaders produce exactly one record per non-empty data
line (each line after the header whose trimmed content is non-empty), in
input order — the i-th record is parsed from the i-th non-empty data line;
when the input has no non-empty line at all (empty input or only blanks),
no row is emitted. -/
theorem parseCsv_one_record_per_line (csv : String) :
    (csvLines csv = [] → TransectApi.parseCsv csv = [] ∧ StreamApi.parseCsv csv = []) ∧
    (∀ hdr rest, csvLines csv = hdr :: rest →
      (TransectApi.parseCsv csv).length = rest.length ∧
      (StreamApi.parseCsv csv).length = rest.length ∧
      (∀ i : ℕ, (TransectApi.parseCsv csv)[i]? =
        (rest[i]?).map (TransectApi.parseRow ((splitChar ',' hdr).map trimJS))) ∧
      (∀ i : ℕ, (StreamApi.parseCsv csv)[i]? =
        (rest[i]?).map (StreamApi.parseRow ((splitChar ',' hdr).map trimJS)))) := by
  constructor
  · intro h
    constructor <;> simp [TransectApi.parseCsv, StreamApi.parseCsv, h]
  · intro hdr rest h
    refine ⟨?_, ?_, fun i => ?_, fun i => ?_⟩ <;>
      simp [TransectApi.parseCsv, StreamApi.parseCsv, h, List.getElem?_map]

/-- Witness for C3 on the specification's sample CSV and on empty input. -/
theorem parseCsv_one_record_per_line_witness :
    csvLines "transect_id,vertex_index,elevation\n1,0,10.5\n1,1,9.0" =
      "transect_id,vertex_index,elevation" :: ["1,0,10.5", "1,1,9.0"] ∧
    (TransectApi.parseCsv "transect_id,vertex_index,elevation\n1,0,10.5\n1,1,9.0").length = 2 ∧
    (StreamApi.parseCsv "transect_id,vertex_index,elevation\n1,0,10.5\n1,1,9.0").length = 2 ∧
    TransectApi.parseCsv "" = [] ∧ StreamApi.parseCsv "" = [] := by
  have h := (parseCsv_one_record_per_line "transect_id,vertex_index,elevation\n1,0,10.5\n1,1,9.0").2
    "transect_id,vertex_index,elevation" ["1,0,10.5", "1,1,9.0"] (by decide)
  have h0 := (parseCsv_one_record_per_line "").1 (by decide)
  exact ⟨by decide, h.1, h.2.1, h0.1, h0.2⟩

/-- C6 counterexample: for the `dam` field, non-numeric text is coerced to
`undefined`, not to the NaN sentinel, by the transect-elevations loader. -/
theorem dam_nonnumeric_counterexample :
    parseFloatJS "abc" = JSNum.nan ∧
    getKey (TransectApi.coerceFields
        (buildObj ["transect_id", "vertex_index", "elevation", "dam"] ["1", "2", "3", "abc"]))
      "dam" = JSValue.vundef ∧
    getKey (TransectApi.coerceFields
        (buildObj ["transect_id", "vertex_index", "elevation", "dam"] ["1", "2", "3", "abc"]))
      "dam" ≠ JSValue.vnum JSNum.nan := by
  refine ⟨by decide, by decide, by decide⟩

/-- C6 amended: non-numeric text in `transect_id`, `vertex_index` and
`elevation` (transect loader) and in `vertex_id`,
`elevation_normalized_m` and `elevation` (stream loader) is coerced to the
NaN sentinel in the emitted record; non-numeric text in `dam` is coerced
to `undefined` instead.  All coercions are total — no error is raised. -/
theorem coercion_nonnumeric_fields (o : Obj) (s : String) :
    (getKey o "transect_id" = JSValue.vstr s → parseIntJS s = JSNum.nan →
      getKey (TransectApi.coerceFields o) "transect_id" = JSValue.vnum JSNum.nan) ∧
    (getKey o "vertex_index" = JSValue.vstr s → parseIntJS s = JSNum.nan →
      getKey (TransectApi.coerceFields o) "vertex_index" = JSValue.vnum JSNum.nan) ∧
    (getKey o "elevation" = JSValue.vstr s → parseFloatJS s = JSNum.nan →
      getKey (TransectApi.coerceFields o) "elevation" = JSValue.vnum JSNum.nan) ∧
    (hasKey o "dam" = true → getKey o "dam" = JSValue.vstr s → parseFloatJS s = JSNum.nan →
      getKey (TransectApi.coerceFields o) "dam" = JSValue.vundef) ∧
    (getKey o "vertex_id" = JSValue.vstr s → parseIntJS s = JSNum.nan →
      getKey (StreamApi.coerceFields o) "vertex_id" = JSValue.vnum JSNum.nan) ∧
    (getKey o "elevation_normalized_m" = JSValue.vstr s → parseFloatJS s = JSNum.nan →
      getKey (StreamApi.coerceFields o) "elevation_normalized_m" = JSValue.vnum JSNum.nan) ∧
    (getKey o "elevation" = JSValue.vstr s → parseFloatJS s = JSNum.nan →
      getKey (StreamApi.coerceFields o) "elevation" = JSValue.vnum JSNum.nan) := by
  refine ⟨fun h1 h2 => ?_, fun h1 h2 => ?_, fun h1 h2 => ?_, fun hd h1 h2 => ?_,
    fun h1 h2 => ?_, fun h1 h2 => ?_, fun h1 h2 => ?_⟩
  · simp only [TransectApi.coerceFields]
    split_ifs with hdam <;>
      simp +decide [getKey_setKey_same, getKey_setKey_ne, h1, h2, jsToString]
  · simp only [TransectApi.coerceFields]
    split_ifs with hdam <;>
      simp +decide [getKey_setKey_same, getKey_setKey_ne, h1, h2, jsToString]
  · simp only [TransectApi.coerceFields]
    split_ifs with hdam <;>
      simp +decide [getKey_setKey_same, getKey_setKey_ne, h1, h2, jsToString]
  · simp only [TransectApi.coerceFields]
    split_ifs with hdam
    · simp +decide [getKey_setKey_same, getKey_setKey_ne, h1, h2, jsToString]
    · exact absurd (by simp +decide [hasKey_setKey, hd]) hdam
  · simp only [StreamApi.coerceFields]
    rw [getKey_condNumSet_ne _ _ _ _ (by decide), getKey_condNumSet_ne _ _ _ _ (by decide),
      getKey_condNumSet_str o _ _ s h1, h2]
  · simp only [StreamApi.coerceFields]
    rw [getKey_condNumSet_ne _ _ _ _ (by decide),
      getKey_condNumSet_str _ _ _ s (by
        rw [getKey_condNumSet_ne _ _ _ _ (by decide)]; exact h1), h2]
  · simp only [StreamApi.coerceFields]
    rw [getKey_condNumSet_str _ _ _ s (by
      rw [getKey_condNumSet_ne _ _ _ _ (by decide), getKey_condNumSet_ne _ _ _ _ (by decide)]
      exact h1), h2]

/-- Witness for the amended C6 on a row whose named fields all hold the
non-numeric text `x`. -/
theorem coercion_nonnumeric_fields_witness :
    (getKey OW "transect_id" = JSValue.vstr "x" ∧ parseIntJS "x" = JSNum.nan ∧
      hasKey OW "dam" = true) ∧
    getKey (TransectApi.coerceFields OW) "transect_id" = JSValue.vnum JSNum.nan ∧
    getKey (TransectApi.coerceFields OW) "dam" = JSValue.vundef ∧
    getKey (StreamApi.coerceFields OW) "vertex_id" = JSValue.vnum JSNum.nan ∧
    getKey (StreamApi.coerceFields OW) "elevation_normalized_m" = JSValue.vnum JSNum.nan := by
  refine ⟨⟨by decide, by decide, by decide⟩, ?_, ?_, ?_, ?_⟩
  · exact (coercion_nonnumeric_fields OW "x").1 (by decide) (by decide)
  · exact (coercion_nonnumeric_fields OW "x").2.2.2.1 (by decide) (by decide) (by decide)
  · exact (coercion_nonnumeric_fields OW "x").2.2.2.2.1 (by decide) (by decide)
  · exact (coercion_nonnumeric_fields OW "x").2.2.2.2.2.1 (by decide) (by decide)

/-- C7: a GET on the transect-elevations endpoint with a `transect_id`
query value that matches no row's `transect_id` (by JavaScript strict
equality) returns a successful response whose data field is the empty
array, not an error response. -/
theorem GET_unmatched_transect_id_empty (content q : String) (hq : q ≠ "")
    (hno : ∀ r ∈ TransectApi.parseCsv content,
      strictEq (getKey r "transect_id") (JSValue.vnum (parseIntJS q)) = false) :
    TransectApi.GET (Except.ok content) (some q) = ApiResponse.ok [] := by
  simp only [TransectApi.GET]
  rw [if_neg hq]
  refine congrArg ApiResponse.ok ?_
  refine List.filter_eq_nil_iff.mpr (fun r hr => ?_)
  rw [hno r hr]
  simp

/-- Witness for C7: a one-row dataset whose `transect_id` is NaN matches
no query value, and the endpoint returns the empty data array. -/
theorem GET_unmatched_transect_id_empty_witness :
    ("99" ≠ "" ∧
      ∀ r ∈ TransectApi.parseCsv "transect_id,vertex_index,elevation\nx,0,10.5",
        strictEq (getKey r "transect_id") (JSValue.vnum (parseIntJS "99")) = false) ∧
    TransectApi.GET (Except.ok "transect_id,vertex_index,elevation\nx,0,10.5") (some "99") =
      ApiResponse.ok [] := by
  refine ⟨⟨by decide, by decide⟩, ?_⟩
  exact GET_unmatched_transect_id_empty "transect_id,vertex_index,elevation\nx,0,10.5" "99"
    (by decide) (by decide)

/-- C1: for a loaded collection containing at least one transect with a
vertex, the Locator returns the transect whose minimum per-vertex
haversine distance to the input point is the global minimum over all
candidates: its `localMin` is attained at one of its vertices, bounds
`localMin` of every candidate and hence the distance to every vertex of
every candidate, and every strictly earlier transect in iteration order
has a strictly larger minimum (first wins ties).  With no data loaded, or
an empty feature list, the Locator returns `none`. -/
theorem findClosestTransect_global_min (lat lng : ℝ) :
    (findClosestTransect none lat lng = none) ∧
    (∀ data : TransectData, data.features = [] →
      findClosestTransect (some data) lat lng = none) ∧
    (∀ data : TransectData, (∃ f ∈ data.features, f.geometry.coordinates ≠ []) →
      ∃ i : Fin data.features.length,
        findClosestTransect (some data) lat lng = some (data.features.get i) ∧
        (∀ f ∈ data.features, localMin lat lng (data.features.get i) ≤ localMin lat lng f) ∧
        (∀ f ∈ data.features, ∀ c ∈ f.geometry.coordinates,
          localMin lat lng (data.features.get i) ≤
            (calculateDistance lat lng c.2 c.1 : WithTop ℝ)) ∧
        (∃ c ∈ (data.features.get i).geometry.coordinates,
          localMin lat lng (data.features.get i) =
            (calculateDistance lat lng c.2 c.1 : WithTop ℝ)) ∧
        (∀ j : Fin data.features.length, j.1 < i.1 →
          localMin lat lng (data.features.get i) < localMin lat lng (data.features.get j))) := by
  refine ⟨rfl, ?_, ?_⟩
  · intro data h
    show closestLoop lat lng data.features ⊤ none = none
    rw [h]
    rfl
  · intro data hex
    obtain ⟨f, hf, hne⟩ := hex
    have himp : ∃ g ∈ data.features, localMin lat lng g < ⊤ :=
      ⟨f, hf, localMin_lt_top lat lng f hne⟩
    obtain ⟨i, hres, hlt, hle, hstrict⟩ := closestLoop_improve lat lng data.features ⊤ none himp
    refine ⟨i, hres, ?_, ?_, ?_, hstrict⟩
    · intro g hg
      obtain ⟨n, hn⟩ := List.get_of_mem hg
      rw [← hn]
      exact hle n
    · intro g hg c hc
      refine le_trans ?_ (localMin_le_vertex lat lng g c hc)
      obtain ⟨n, hn⟩ := List.get_of_mem hg
      rw [← hn]
      exact hle n
    · rcases vertexFold_attained lat lng (data.features.get i).geometry.coordinates ⊤ with
        htop | hatt
      · exfalso
        have hm : localMin lat lng (data.features.get i) = ⊤ := htop
        rw [hm] at hlt
        exact lt_irrefl ⊤ hlt
      · exact hatt

/-- Witness for C1 on a one-transect collection whose single vertex is the
origin. -/
theorem findClosestTransect_global_min_witness :
    findClosestTransect none 0 0 = none ∧
    (∃ f ∈ dataW.features, f.geometry.coordinates ≠ []) ∧
    (∃ i : Fin dataW.features.length,
      findClosestTransect (some dataW) 0 0 = some (dataW.features.get i) ∧
      (∀ f ∈ dataW.features, localMin 0 0 (dataW.features.get i) ≤ localMin 0 0 f) ∧
      (∀ f ∈ dataW.features, ∀ c ∈ f.geometry.coordinates,
        localMin 0 0 (dataW.features.get i) ≤ (calculateDistance 0 0 c.2 c.1 : WithTop ℝ)) ∧
      (∃ c ∈ (dataW.features.get i).geometry.coordinates,
        localMin 0 0 (dataW.features.get i) = (calculateDistance 0 0 c.2 c.1 : WithTop ℝ)) ∧
      (∀ j : Fin dataW.features.length, j.1 < i.1 →
        localMin 0 0 (dataW.features.get i) < localMin 0 0 (dataW.features.get j))) := by
  have hex : ∃ f ∈ dataW.features, f.geometry.coordinates ≠ [] :=
    ⟨featW, by simp [dataW], by simp [featW, mkFeature]⟩
  exact ⟨(findClosestTransect_global_min 0 0).1, hex,
    (findClosestTransect_global_min 0 0).2.2 dataW hex⟩

/-- C4 counterexample: two distinct transects both pass through the origin
vertex; querying the Locator at that vertex of the *second* transect
returns the first transect, so the round trip fails as universally
stated. -/
theorem locator_roundtrip_counterexample :
    fdup2 ∈ dataDup.features ∧
    ((0 : ℝ), (0 : ℝ)) ∈ fdup2.geometry.coordinates ∧
    findClosestTransect (some dataDup) 0 0 ≠ some fdup2 := by
  have h0top : (0 : WithTop ℝ) < ⊤ := by simp
  have hloc : ∀ f : TransectFeature, f.geometry.coordinates = [((0 : ℝ), (0 : ℝ))] →
      localMin 0 0 f = (0 : WithTop ℝ) := by
    intro f hf
    unfold localMin
    rw [hf]
    simp [vertexFold, calculateDistance_self]
  have h1 : localMin 0 0 fdup1 = (0 : WithTop ℝ) := hloc fdup1 (by simp [fdup1, mkFeature])
  have h2 : localMin 0 0 fdup2 = (0 : WithTop ℝ) := hloc fdup2 (by simp [fdup2, mkFeature])
  have hres : findClosestTransect (some dataDup) 0 0 = some fdup1 := by
    show closestLoop 0 0 [fdup1, fdup2] ⊤ none = some fdup1
    simp only [closestLoop]
    rw [h1, h2, if_pos h0top, if_neg (lt_irrefl (0 : WithTop ℝ))]
  refine ⟨by simp [dataDup], by simp [fdup2, mkFeature], ?_⟩
  rw [hres]
  intro hc
  have h12 : fdup1 = fdup2 := Option.some.inj hc
  have hid : fdup1.properties.transect_id = fdup2.properties.transect_id := by rw [h12]
  simp only [fdup1, fdup2, mkFeature] at hid
  have hq : (1 : ℚ) = 2 := by injection hid
  norm_num at hq

/-- C4 amended: calling the Locator with the exact coordinates of vertex V
of transect T returns a transect at distance exactly 0; it returns T
itself whenever every transect strictly earlier in iteration order has
strictly positive minimum distance to V (ties at 0 go to the first such
transect). -/
theorem locator_roundtrip_first_zero (lat lng : ℝ) (data : TransectData)
    (i : Fin data.features.length)
    (hv : (lng, lat) ∈ (data.features.get i).geometry.coordinates)
    (hearlier : ∀ j : Fin data.features.length, j.1 < i.1 →
      0 < localMin lat lng (data.features.get j)) :
    findClosestTransect (some data) lat lng = some (data.features.get i) ∧
    localMin lat lng (data.features.get i) = 0 := by
  have hle0 : localMin lat lng (data.features.get i) ≤ (0 : WithTop ℝ) := by
    have h := localMin_le_vertex lat lng (data.features.get i) (lng, lat) hv
    simp [calculateDistance_self] at h
    exact h
  have heq : localMin lat lng (data.features.get i) = 0 :=
    le_antisymm hle0 (localMin_nonneg lat lng _)
  have h0top : (0 : WithTop ℝ) < ⊤ := by simp
  have himp : ∃ g ∈ data.features, localMin lat lng g < ⊤ :=
    ⟨data.features.get i, List.get_mem data.features i.1 i.2, by rw [heq]; exact h0top⟩
  obtain ⟨i2, hres, hlt, hle, hstrict⟩ := closestLoop_improve lat lng data.features ⊤ none himp
  have hz2 : localMin lat lng (data.features.get i2) = 0 := by
    have h := hle i
    rw [heq] at h
    exact le_antisymm h (localMin_nonneg lat lng _)
  have hii : i2 = i := by
    rcases Nat.lt_trichotomy i2.1 i.1 with hlt2 | heq2 | hgt2
    · exfalso
      have h := hearlier i2 hlt2
      rw [hz2] at h
      exact lt_irrefl _ h
    · exact Fin.ext heq2
    · exfalso
      have h := hstrict i hgt2
      rw [hz2, heq] at h
      exact lt_irrefl _ h
  rw [hii] at hres
  exact ⟨hres, heq⟩

/-- Witness for the amended C4 on a one-transect collection whose single
vertex is the origin. -/
theorem locator_roundtrip_first_zero_witness :
    ((0 : ℝ), (0 : ℝ)) ∈ (dataRT.features.get iRT).geometry.coordinates ∧
    findClosestTransect (some dataRT) 0 0 = some (dataRT.features.get iRT) ∧
    localMin 0 0 (dataRT.features.get iRT) = 0 := by
  have hv : ((0 : ℝ), (0 : ℝ)) ∈ (dataRT.features.get iRT).geometry.coordinates := by
    simp [dataRT, featRT, mkFeature, iRT]
  have h := locator_roundtrip_first_zero 0 0 dataRT iRT hv
    (fun j hj => absurd hj (Nat.not_lt_zero j.1))
  exact ⟨hv, h.1, h.2⟩

/-- Witness for C9: with no data loaded and nothing hovered, the ids agree
(both absent) and the handler changes nothing and calls no callback. -/
theorem handleMapMouseMove_suppression_witness :
    strictNeIdOpt ((none : Option TransectFeature).map fun f => f.properties.transect_id)
      ((findClosestTransect none 0 0).map fun f => f.properties.transect_id) = false ∧
    handleMapMouseMove none none 0 0 = { hoveredAfter := none, callback := none } :=
  ⟨rfl, (handleMapMouseMove_suppression none none 0 0).1 rfl⟩

end StreamViz
